import Mathlib

/-!
Shallow embedding of `src/io/parquet/read/statistics/fixlen.rs` from the
`arrow2` repository: reconstruction of Arrow statistics from parquet
fixed-length-byte-array statistics.

Modelling conventions:
* `u8` bytes are `Nat` (with explicit `< 256` bounds where the invariant
  matters); byte strings are `List Nat`.
* `i128` is `Int`, with two's-complement decoding made explicit
  (`i128_from_be_bytes` subtracts `2^128` when the unsigned value has the
  top bit set).
* Rust `Option` is Lean `Option`; the fallible conversions return
  `Except ArrowError _`.
* `Box<dyn Statistics>` returned by the dispatcher is modelled by the sum
  type `StatisticsBox` of the two concrete statistics records this file
  can produce.
-/

/-- The subset of `crate::datatypes::DataType` relevant to this module:
the two accepted logical types plus representative others used by the
fall-through arm of the dispatcher. -/
inductive DataType where
  | Boolean : DataType
  | Int32 : DataType
  | Int64 : DataType
  | Float64 : DataType
  | Utf8 : DataType
  | Binary : DataType
  | Date32 : DataType
  | Decimal : Nat → Nat → DataType
  | FixedSizeBinary : Nat → DataType
deriving DecidableEq, Repr

/-- Rust `Debug` rendering of `DataType`, as produced by `format!` with
the debug format specifier in the error messages. -/
def dataTypeDebug : DataType → String
  | .Boolean => "Boolean"
  | .Int32 => "Int32"
  | .Int64 => "Int64"
  | .Float64 => "Float64"
  | .Utf8 => "Utf8"
  | .Binary => "Binary"
  | .Date32 => "Date32"
  | .Decimal p s => "Decimal(" ++ toString p ++ ", " ++ toString s ++ ")"
  | .FixedSizeBinary n => "FixedSizeBinary(" ++ toString n ++ ")"

/-- The two `ArrowError` variants constructed in `fixlen.rs`. -/
inductive ArrowError where
  | ExternalFormat : String → ArrowError
  | NotYetImplemented : String → ArrowError
deriving DecidableEq, Repr

/-- `parquet2::statistics::FixedLenStatistics`.  Its physical type is
always `PhysicalType::FixedLenByteArray(size)` (the other match arms in
the source are `unreachable!()`), so we carry the size directly. -/
structure ParquetFixedLenStatistics where
  byte_width : Nat
  null_count : Option Int
  distinct_count : Option Int
  min_value : Option (List Nat)
  max_value : Option (List Nat)
deriving DecidableEq, Repr

/-- `FixedLenStatistics` (the arrow-deserialized record defined in
`fixlen.rs`). -/
structure FixedLenStatistics where
  null_count : Option Int
  distinct_count : Option Int
  min_value : Option (List Nat)
  max_value : Option (List Nat)
  data_type : DataType
deriving DecidableEq, Repr

/-- `PrimitiveStatistics<i128>` from the sibling `primitive.rs` module,
instantiated at `i128`. -/
structure PrimitiveStatisticsI128 where
  data_type : DataType
  null_count : Option Int
  distinct_count : Option Int
  min_value : Option Int
  max_value : Option Int
deriving DecidableEq, Repr

/-- Unsigned big-endian value of a byte string (the value of the
`[u8; 16]` buffer before sign interpretation). -/
def beBytesToNat (bs : List Nat) : Nat :=
  bs.foldl (fun acc b => acc * 256 + b) 0

/-- `i128::from_be_bytes`: interpret 16 big-endian bytes as a
two's-complement signed 128-bit integer. -/
def i128_from_be_bytes (bs : List Nat) : Int :=
  if beBytesToNat bs < 2 ^ 127 then (beBytesToNat bs : Int)
  else (beBytesToNat bs : Int) - 2 ^ 128

/-- Big-endian encoding of `n` into `len` bytes (low byte last). -/
def natToBeBytes (n : Nat) : Nat → List Nat
  | 0 => []
  | len + 1 => natToBeBytes (n / 256) len ++ [n % 256]

/-- `i128::to_be_bytes`: the 16 big-endian bytes of the two's-complement
representation of `v`. -/
def i128_to_be_bytes (v : Int) : List Nat :=
  natToBeBytes (v % 2 ^ 128).toNat 16

/-- One min/max conversion step of the `Decimal` path in
`TryFrom<(&ParquetFixedLenStatistics, DataType)> for
PrimitiveStatistics<i128>`: prepend `16 - byte_width` zero padding bytes,
then `try_into` a `[u8; 16]` (which succeeds exactly when the
concatenation has length 16) and decode; a failed `try_into` is mapped to
`none` by `.ok()`. -/
def decodeFixLen (byte_width : Nat) (value : List Nat) : Option Int :=
  if (List.replicate (16 - byte_width) 0 ++ value).length = 16 then
    some (i128_from_be_bytes (List.replicate (16 - byte_width) 0 ++ value))
  else none

/-- `TryFrom<(&ParquetFixedLenStatistics, DataType)> for
PrimitiveStatistics<i128>`. -/
def primitiveStatisticsI128_try_from (stats : ParquetFixedLenStatistics)
    (data_type : DataType) : Except ArrowError PrimitiveStatisticsI128 :=
  if stats.byte_width > 16 then
    .error (.ExternalFormat
      ("Can't deserialize i128 from Fixed Len Byte array with length "
        ++ toString stats.byte_width))
  else
    .ok { data_type := data_type
          null_count := stats.null_count
          distinct_count := stats.distinct_count
          max_value := stats.max_value.bind (decodeFixLen stats.byte_width)
          min_value := stats.min_value.bind (decodeFixLen stats.byte_width) }

/-- `From<&ParquetFixedLenStatistics> for FixedLenStatistics`. -/
def fixedLenStatistics_from (stats : ParquetFixedLenStatistics) :
    FixedLenStatistics :=
  { null_count := stats.null_count
    distinct_count := stats.distinct_count
    min_value := stats.min_value
    max_value := stats.max_value
    data_type := .FixedSizeBinary stats.byte_width }

/-- The `Box<dyn Statistics>` values producible by
`statistics_from_fix_len`. -/
inductive StatisticsBox where
  | primitiveI128 : PrimitiveStatisticsI128 → StatisticsBox
  | fixedLen : FixedLenStatistics → StatisticsBox
deriving DecidableEq, Repr

/-- The `Statistics::data_type` trait method on the boxed result. -/
def StatisticsBox.dataType : StatisticsBox → DataType
  | .primitiveI128 s => s.data_type
  | .fixedLen s => s.data_type

/-- Whether the boxed record's `min_value` is absent. -/
def StatisticsBox.minIsNone : StatisticsBox → Bool
  | .primitiveI128 s => s.min_value.isNone
  | .fixedLen s => s.min_value.isNone

/-- Whether the boxed record's `max_value` is absent. -/
def StatisticsBox.maxIsNone : StatisticsBox → Bool
  | .primitiveI128 s => s.max_value.isNone
  | .fixedLen s => s.max_value.isNone

/-- `statistics_from_fix_len`, the dispatcher at the bottom of
`fixlen.rs`. -/
def statistics_from_fix_len (stats : ParquetFixedLenStatistics)
    (data_type : DataType) : Except ArrowError StatisticsBox :=
  match data_type with
  | .Decimal p s =>
      (primitiveStatisticsI128_try_from stats (.Decimal p s)).map .primitiveI128
  | .FixedSizeBinary n =>
      let _ := n
      .ok (.fixedLen (fixedLenStatistics_from stats))
  | other =>
      .error (.NotYetImplemented
        ("Can't read " ++ dataTypeDebug other ++ " from parquet"))

/-- C1: for every fixed-length statistics input whose byte width exceeds
16 and any Decimal target type, the reconstruction fails with an
external-format error whose message contains the offending width,
regardless of null count, distinct count, or min/max presence. -/
theorem spec_C1 (stats : ParquetFixedLenStatistics) (p s : Nat)
    (h : stats.byte_width > 16) :
    statistics_from_fix_len stats (.Decimal p s)
      = .error (.ExternalFormat
          ("Can't deserialize i128 from Fixed Len Byte array with length "
            ++ toString stats.byte_width)) := by
  simp [statistics_from_fix_len, primitiveStatisticsI128_try_from, h,
    Except.map]

theorem spec_C1_witness :
    statistics_from_fix_len
        ⟨17, some 1, some 2, some (List.replicate 17 0xAB),
          some (List.replicate 17 0xCD)⟩
        (.Decimal 38 10)
      = .error (.ExternalFormat
          ("Can't deserialize i128 from Fixed Len Byte array with length "
            ++ toString
              (ParquetFixedLenStatistics.byte_width
                ⟨17, some 1, some 2, some (List.replicate 17 0xAB),
                  some (List.replicate 17 0xCD)⟩))) :=
  spec_C1 _ 38 10 (by decide)

/-- C2: with a FixedSizeBinary target the dispatcher always succeeds and
returns a record whose min/max bytes and null/distinct counts are copied
verbatim from the input and whose data type is FixedSizeBinary of the
input's physical byte width. -/
theorem spec_C2 (stats : ParquetFixedLenStatistics) (n : Nat) :
    statistics_from_fix_len stats (.FixedSizeBinary n)
      = .ok (.fixedLen
          { null_count := stats.null_count
            distinct_count := stats.distinct_count
            min_value := stats.min_value
            max_value := stats.max_value
            data_type := .FixedSizeBinary stats.byte_width })
    ∧ ∀ r, (StatisticsBox.fixedLen r).dataType = r.data_type :=
  ⟨rfl, fun _ => rfl⟩

/-- C5: for every target logical type other than Decimal and
FixedSizeBinary, the dispatcher fails with a not-yet-implemented error
whose message names the rejected type. -/
theorem spec_C5 (stats : ParquetFixedLenStatistics) (dt : DataType)
    (hd : ∀ p s, dt ≠ .Decimal p s) (hf : ∀ n, dt ≠ .FixedSizeBinary n) :
    statistics_from_fix_len stats dt
      = .error (.NotYetImplemented
          ("Can't read " ++ dataTypeDebug dt ++ " from parquet")) := by
  cases dt
  case Decimal p s => exact absurd rfl (hd p s)
  case FixedSizeBinary n => exact absurd rfl (hf n)
  all_goals rfl

theorem spec_C5_witness :
    statistics_from_fix_len ⟨4, some 0, none, none, none⟩ DataType.Utf8
      = .error (.NotYetImplemented
          ("Can't read " ++ dataTypeDebug DataType.Utf8 ++ " from parquet")) :=
  spec_C5 _ _ (by intro p s h; cases h) (by intro n h; cases h)

/-- C6: the concrete scenario with width 4, min bytes 00 00 00 01, max
bytes 00 00 00 0A and target Decimal(9, 0) succeeds with min 1, max 10,
and the input's null count (and distinct count) passed through. -/
theorem spec_C6 (nc dc : Option Int) :
    statistics_from_fix_len
        ⟨4, nc, dc, some [0x00, 0x00, 0x00, 0x01], some [0x00, 0x00, 0x00, 0x0A]⟩
        (.Decimal 9 0)
      = .ok (.primitiveI128 ⟨.Decimal 9 0, nc, dc, some 1, some 10⟩) := by
  rfl

/-- C7: on both successful paths, an absent input min_value yields an
absent output min_value, independent of max_value, and symmetrically for
max_value. -/
theorem spec_C7 (stats : ParquetFixedLenStatistics) (dt : DataType)
    (out : StatisticsBox)
    (h : statistics_from_fix_len stats dt = .ok out) :
    (stats.min_value = none → out.minIsNone = true) ∧
    (stats.max_value = none → out.maxIsNone = true) := by
  cases dt
  case Decimal p s =>
    unfold statistics_from_fix_len primitiveStatisticsI128_try_from at h
    by_cases hw : stats.byte_width > 16
    · simp [hw, Except.map] at h
    · simp [hw, Except.map] at h
      subst h
      constructor <;> intro hm <;>
        simp [StatisticsBox.minIsNone, StatisticsBox.maxIsNone, hm]
  case FixedSizeBinary n =>
    unfold statistics_from_fix_len fixedLenStatistics_from at h
    simp at h
    subst h
    constructor <;> intro hm <;>
      simp [StatisticsBox.minIsNone, StatisticsBox.maxIsNone, hm]
  all_goals exact absurd h (by simp [statistics_from_fix_len])

theorem spec_C7_witness :
    ((ParquetFixedLenStatistics.min_value ⟨4, none, none, none, none⟩ = none →
        (StatisticsBox.primitiveI128
          ⟨.Decimal 9 0, none, none, none, none⟩).minIsNone = true) ∧
     (ParquetFixedLenStatistics.max_value ⟨4, none, none, none, none⟩ = none →
        (StatisticsBox.primitiveI128
          ⟨.Decimal 9 0, none, none, none, none⟩).maxIsNone = true)) :=
  spec_C7 ⟨4, none, none, none, none⟩ (.Decimal 9 0)
    (.primitiveI128 ⟨.Decimal 9 0, none, none, none, none⟩) (by rfl)

/-- C9: with a Decimal target and byte width at most 16, the
reconstruction succeeds for every precision and scale, and the output's
data type is exactly the caller-supplied Decimal(p, s). -/
theorem spec_C9 (stats : ParquetFixedLenStatistics) (p s : Nat)
    (hw : stats.byte_width ≤ 16) :
    ∃ out : PrimitiveStatisticsI128,
      statistics_from_fix_len stats (.Decimal p s) = .ok (.primitiveI128 out)
      ∧ out.data_type = .Decimal p s := by
  refine ⟨{ data_type := .Decimal p s
            null_count := stats.null_count
            distinct_count := stats.distinct_count
            max_value := stats.max_value.bind (decodeFixLen stats.byte_width)
            min_value := stats.min_value.bind (decodeFixLen stats.byte_width) },
    ?_, rfl⟩
  simp [statistics_from_fix_len, primitiveStatisticsI128_try_from,
    Nat.not_lt.mpr hw, Except.map]

theorem spec_C9_witness :
    ∃ out : PrimitiveStatisticsI128,
      statistics_from_fix_len ⟨16, none, some 5, some (List.replicate 16 0xFF), none⟩
          (.Decimal 38 7)
        = .ok (.primitiveI128 out)
      ∧ out.data_type = .Decimal 38 7 :=
  spec_C9 _ 38 7 (by decide)

/-- C10: the dispatcher is deterministic — equal inputs produce equal
outcomes (the embedding is a pure function of the statistics record and
target type alone). -/
theorem spec_C10 (s1 s2 : ParquetFixedLenStatistics) (d1 d2 : DataType)
    (hs : s1 = s2) (hd : d1 = d2) :
    statistics_from_fix_len s1 d1 = statistics_from_fix_len s2 d2 := by
  rw [hs, hd]

theorem spec_C10_witness :
    statistics_from_fix_len ⟨4, some 1, none, some [1, 2, 3, 4], none⟩
        (.Decimal 9 0)
      = statistics_from_fix_len ⟨4, some 1, none, some [1, 2, 3, 4], none⟩
        (.Decimal 9 0) :=
  spec_C10 _ _ _ _ rfl rfl

theorem foldl_be_replicate_zero (k : Nat) :
    List.foldl (fun acc b => acc * 256 + b) 0 (List.replicate k 0) = 0 := by
  induction k with
  | zero => rfl
  | succ n ih => simp [List.replicate_succ, ih]

theorem beBytesToNat_replicate_zero_append (k : Nat) (v : List Nat) :
    beBytesToNat (List.replicate k 0 ++ v) = beBytesToNat v := by
  unfold beBytesToNat
  rw [List.foldl_append, foldl_be_replicate_zero]

theorem foldl_be_lt (v : List Nat) :
    ∀ a, (∀ b ∈ v, b < 256) →
      List.foldl (fun acc b => acc * 256 + b) a v < (a + 1) * 256 ^ v.length := by
  induction v with
  | nil => intro a _; simp
  | cons b t ih =>
    intro a hb
    have hb0 : b < 256 := hb b (List.mem_cons_self b t)
    have ht : ∀ x ∈ t, x < 256 := fun x hx => hb x (List.mem_cons_of_mem b hx)
    have h1 := ih (a * 256 + b) ht
    calc List.foldl (fun acc x => acc * 256 + x) a (b :: t)
        = List.foldl (fun acc x => acc * 256 + x) (a * 256 + b) t := rfl
      _ < (a * 256 + b + 1) * 256 ^ t.length := h1
      _ ≤ ((a + 1) * 256) * 256 ^ t.length := by
          have hstep : a * 256 + b + 1 ≤ (a + 1) * 256 := by nlinarith
          exact Nat.mul_le_mul_right _ hstep
      _ = (a + 1) * 256 ^ (b :: t).length := by
          simp [List.length_cons, pow_succ]
          ring

theorem beBytesToNat_lt (v : List Nat) (hb : ∀ b ∈ v, b < 256) :
    beBytesToNat v < 256 ^ v.length := by
  have := foldl_be_lt v 0 hb
  simpa [beBytesToNat] using this

theorem beBytesToNat_append_singleton (t : List Nat) (b : Nat) :
    beBytesToNat (t ++ [b]) = beBytesToNat t * 256 + b := by
  simp [beBytesToNat, List.foldl_append]

theorem natToBeBytes_beBytesToNat (v : List Nat) (hb : ∀ b ∈ v, b < 256) :
    natToBeBytes (beBytesToNat v) v.length = v := by
  induction v using List.reverseRecOn with
  | nil => rfl
  | append_singleton t b ih =>
    have hb0 : b < 256 := hb b (by simp)
    have ht : ∀ x ∈ t, x < 256 := fun x hx => hb x (by simp [hx])
    rw [beBytesToNat_append_singleton]
    have hlen : (t ++ [b]).length = t.length + 1 := by simp
    rw [hlen]
    have hdiv : (beBytesToNat t * 256 + b) / 256 = beBytesToNat t := by omega
    have hmod : (beBytesToNat t * 256 + b) % 256 = b := by omega
    simp only [natToBeBytes, hdiv, hmod, ih ht]

theorem beBytesToNat_lt_two_pow (v : List Nat) (hb : ∀ b ∈ v, b < 256) :
    beBytesToNat v < 2 ^ (8 * v.length) := by
  have h := beBytesToNat_lt v hb
  have h2 : (256 : Nat) ^ v.length = 2 ^ (8 * v.length) := by
    rw [Nat.pow_mul]
  omega

theorem i128_roundtrip (bs : List Nat) (hl : bs.length = 16)
    (hb : ∀ b ∈ bs, b < 256) :
    i128_to_be_bytes (i128_from_be_bytes bs) = bs := by
  have hn : beBytesToNat bs < 2 ^ 128 := by
    have h := beBytesToNat_lt_two_pow bs hb
    rw [hl] at h
    exact h
  have key : ((i128_from_be_bytes bs) % 2 ^ 128).toNat = beBytesToNat bs := by
    have hn' : (beBytesToNat bs : Int) < 2 ^ 128 := by exact_mod_cast hn
    have hpow : (2 : Int) ^ 128 = 340282366920938463463374607431768211456 := by
      norm_num
    unfold i128_from_be_bytes
    split
    · rw [hpow] at hn' ⊢
      omega
    · rw [hpow] at hn' ⊢
      omega
  unfold i128_to_be_bytes
  rw [key]
  have h := natToBeBytes_beBytesToNat bs hb
  rw [hl] at h
  exact h

theorem decodeFixLen_some (w : Nat) (v : List Nat) (hw : w ≤ 16)
    (hl : v.length = w) :
    decodeFixLen w v
      = some (i128_from_be_bytes (List.replicate (16 - w) 0 ++ v)) := by
  have hlen : (List.replicate (16 - w) 0 ++ v).length = 16 := by
    simp [hl]
    omega
  simp [decodeFixLen, hlen]

/-- C3: for byte width w strictly below 16 and a value of length w, the
decimal path pads with 16 - w zero bytes (not the sign bit), so the
decoded i128 equals the unsigned big-endian value of the original bytes
and lies in the interval from 0 up to 2 to the 8w. -/
theorem spec_C3 (w : Nat) (v : List Nat) (hw : w < 16) (hl : v.length = w)
    (hb : ∀ b ∈ v, b < 256) :
    ∃ x : Int, decodeFixLen w v = some x
      ∧ x = (beBytesToNat v : Int)
      ∧ 0 ≤ x ∧ x < 2 ^ (8 * w) := by
  have hds := decodeFixLen_some w v (Nat.le_of_lt hw) hl
  have hval : beBytesToNat (List.replicate (16 - w) 0 ++ v) = beBytesToNat v :=
    beBytesToNat_replicate_zero_append _ v
  have hlt : beBytesToNat v < 2 ^ (8 * w) := by
    have h := beBytesToNat_lt_two_pow v hb
    rw [hl] at h
    exact h
  have hsmall : beBytesToNat v < 2 ^ 127 := by
    have h8 : 2 ^ (8 * w) ≤ 2 ^ 120 := Nat.pow_le_pow_right (by norm_num) (by omega)
    have h9 : (2 : Nat) ^ 120 < 2 ^ 127 := Nat.pow_lt_pow_right (by norm_num) (by norm_num)
    omega
  refine ⟨(beBytesToNat v : Int), ?_, rfl, Int.ofNat_nonneg _, ?_⟩
  · rw [hds]
    unfold i128_from_be_bytes
    rw [hval, if_pos hsmall]
  · exact_mod_cast hlt

theorem spec_C3_witness :
    ∃ x : Int, decodeFixLen 2 [0xFF, 0xFE] = some x
      ∧ x = (beBytesToNat [0xFF, 0xFE] : Int)
      ∧ 0 ≤ x ∧ x < 2 ^ (8 * 2) :=
  spec_C3 2 [0xFF, 0xFE] (by decide) (by decide) (by decide)

/-- C4: for byte width w at most 16 and a value of length w, decoding to
i128 and re-encoding to 16 big-endian bytes yields exactly the
zero-padded original: 16 - w zero bytes followed by the original bytes. -/
theorem spec_C4 (w : Nat) (v : List Nat) (hw : w ≤ 16) (hl : v.length = w)
    (hb : ∀ b ∈ v, b < 256) :
    ∃ x : Int, decodeFixLen w v = some x
      ∧ i128_to_be_bytes x = List.replicate (16 - w) 0 ++ v := by
  refine ⟨i128_from_be_bytes (List.replicate (16 - w) 0 ++ v),
    decodeFixLen_some w v hw hl, ?_⟩
  apply i128_roundtrip
  · simp [hl]
    omega
  · intro b hbmem
    rcases List.mem_append.mp hbmem with h | h
    · rw [List.eq_of_mem_replicate h]
      norm_num
    · exact hb b h

theorem spec_C4_witness :
    ∃ x : Int, decodeFixLen 2 [0x80, 0x01] = some x
      ∧ i128_to_be_bytes x = List.replicate (16 - 2) 0 ++ [0x80, 0x01] :=
  spec_C4 2 [0x80, 0x01] (by decide) (by decide) (by decide)

/-- C8: a pad-plus-value concatenation that is not exactly 16 bytes makes
the value absent rather than an error; and when every present min/max has
length equal to the byte width and the width is at most 16, that branch
is unreachable, so presence of min/max is preserved exactly. -/
theorem spec_C8 (stats : ParquetFixedLenStatistics) (p s : Nat)
    (hw : stats.byte_width ≤ 16)
    (hmin : ∀ v, stats.min_value = some v → v.length = stats.byte_width)
    (hmax : ∀ v, stats.max_value = some v → v.length = stats.byte_width) :
    (∀ w v, (List.replicate (16 - w) 0 ++ v : List Nat).length ≠ 16 →
        decodeFixLen w v = none)
    ∧ ∃ out : PrimitiveStatisticsI128,
        primitiveStatisticsI128_try_from stats (.Decimal p s) = .ok out
        ∧ out.min_value.isSome = stats.min_value.isSome
        ∧ out.max_value.isSome = stats.max_value.isSome := by
  constructor
  · intro w v hne
    unfold decodeFixLen
    rw [if_neg hne]
  · refine ⟨{ data_type := .Decimal p s
              null_count := stats.null_count
              distinct_count := stats.distinct_count
              max_value := stats.max_value.bind (decodeFixLen stats.byte_width)
              min_value := stats.min_value.bind (decodeFixLen stats.byte_width) },
      ?_, ?_, ?_⟩
    · simp [primitiveStatisticsI128_try_from, Nat.not_lt.mpr hw]
    · cases hmv : stats.min_value with
      | none => simp
      | some v =>
        simp only [Option.some_bind]
        rw [decodeFixLen_some stats.byte_width v hw (hmin v hmv)]
        rfl
    · cases hmv : stats.max_value with
      | none => simp
      | some v =>
        simp only [Option.some_bind]
        rw [decodeFixLen_some stats.byte_width v hw (hmax v hmv)]
        rfl

theorem spec_C8_witness :
    (∀ w v, (List.replicate (16 - w) 0 ++ v : List Nat).length ≠ 16 →
        decodeFixLen w v = none)
    ∧ ∃ out : PrimitiveStatisticsI128,
        primitiveStatisticsI128_try_from ⟨4, some 0, none, some [1, 2, 3, 4], none⟩
            (.Decimal 10 2)
          = .ok out
        ∧ out.min_value.isSome
            = (ParquetFixedLenStatistics.min_value
                ⟨4, some 0, none, some [1, 2, 3, 4], none⟩).isSome
        ∧ out.max_value.isSome
            = (ParquetFixedLenStatistics.max_value
                ⟨4, some 0, none, some [1, 2, 3, 4], none⟩).isSome :=
  spec_C8 ⟨4, some 0, none, some [1, 2, 3, 4], none⟩ 10 2 (by decide)
    (by intro v hv; cases hv; rfl) (by intro v hv; cases hv)
